import Mathlib

/-
Verification of the CVP (Cost-Volume-Profit) engine of this repository:
the function cvp_analysis_with_full_sliding_fee in CVP.py.

The embedding mirrors the source line by line. Numbers are modelled as
rationals. Python dictionaries are modelled as association lists that
preserve insertion order, exactly as Python dicts do. The failure points of
the source (ZeroDivisionError at the fixed-cost division for an empty
service list, KeyError at the schedule lookup, KeyError at a tier field
access) are modelled as an Except error whose constructors carry the names
the specification gives these failures: InvalidInputError,
MissingScheduleError and MalformedTierError.
-/

namespace CVP

/-- A service record, as in the services list of CVP.py: a dict with keys
service_name, volume and variable_cost_per_unit. -/
structure Service where
  service_name : String
  volume : ℚ
  variable_cost_per_unit : ℚ
deriving DecidableEq, Repr, Inhabited

/-- One tier entry of the sliding fee schedule: a dict that is expected to
hold a price and a percentage. Either key may be absent in a malformed
input, hence the Option fields; an access to an absent key is the source of
a KeyError in the Python code. -/
structure TierValues where
  price : Option ℚ
  percentage : Option ℚ
deriving DecidableEq, Repr, Inhabited

/-- A tier set of one service: an insertion-ordered dict from tier name to
tier values. -/
abbrev TierSet := List (String × TierValues)

/-- The sliding fee schedule: an insertion-ordered dict from service name to
that service's tier set. -/
abbrev Schedule := List (String × TierSet)

/-- The error kinds of the engine, named as in the specification.
invalidInput models the ZeroDivisionError the source raises at
total_fixed_costs / num_services for an empty services list;
missingSchedule models the KeyError at sliding_fee_schedule[service_name];
malformedTier models the KeyError at a missing percentage or price key of a
tier entry, carrying the tier name and the missing field name. -/
inductive CVPError where
  | invalidInput : CVPError
  | missingSchedule (service_name : String) : CVPError
  | malformedTier (tier field : String) : CVPError
deriving DecidableEq, Repr

/-- One row appended to service_data in CVP.py lines 63-72: the keys
Service, Volume, the unpacked tier revenues, Total Revenue, Total Variable
Costs, Fixed Costs, Total Costs, Profit. -/
structure ServiceRow where
  service : String
  volume : ℚ
  tier_revenues : List (String × ℚ)
  total_revenue : ℚ
  total_variable_costs : ℚ
  fixed_costs : ℚ
  total_costs : ℚ
  profit : ℚ
deriving DecidableEq, Repr, Inhabited

/-- The returned DataFrame: its rows (one per service, in order) and its
final column order after the reindexing results_df[column_order]
(CVP.py lines 78-80). -/
structure CVPResult where
  rows : List ServiceRow
  columns : List String
deriving DecidableEq, Repr, Inhabited

/-- Python dict access d[key] on an insertion-ordered association list:
the first binding of the key, none when the key is absent. -/
def lookupSched {α : Type} (key : String) : List (String × α) → Option α
  | [] => none
  | (k, v) :: rest => if k = key then some v else lookupSched key rest

/-- The inner tier loop of CVP.py lines 43-51, for one service: iterates the
tier set in insertion order, accumulating total_revenue over every tier and
recording the tier revenue in tier_revenues only when the tier is not named
Full Charges. The percentage key is read before the price key, as in the
source (lines 44-45); a missing key fails the whole computation. -/
def tierLoop (volume : ℚ) :
    TierSet → ℚ → List (String × ℚ) → Except CVPError (ℚ × List (String × ℚ))
  | [], total_revenue, tier_revenues => .ok (total_revenue, tier_revenues)
  | (tier, values) :: rest, total_revenue, tier_revenues =>
    match values.percentage with
    | none => .error (.malformedTier tier "percentage")
    | some pct =>
      match values.price with
      | none => .error (.malformedTier tier "price")
      | some tier_price =>
        let tier_volume := volume * pct
        let tier_revenue := tier_volume * tier_price
        let tier_revenues' :=
          if tier ≠ "Full Charges" then tier_revenues ++ [(tier, tier_revenue)]
          else tier_revenues
        tierLoop volume rest (total_revenue + tier_revenue) tier_revenues'

/-- The body of the service loop of CVP.py lines 32-72 for one service:
looks up the service's tier set (the KeyError point modelled by
missingSchedule), runs the tier loop, then computes total_variable_costs,
total_costs and profit and builds the row. Returns the row together with
the tier_revenues dict, which the source keeps in scope after the loop. -/
def processService (schedule : Schedule) (fixed_cost_per_service : ℚ)
    (service : Service) : Except CVPError (ServiceRow × List (String × ℚ)) :=
  match lookupSched service.service_name schedule with
  | none => .error (.missingSchedule service.service_name)
  | some service_sliding_fee =>
    match tierLoop service.volume service_sliding_fee 0 [] with
    | .error e => .error e
    | .ok (total_revenue, tier_revenues) =>
      let total_variable_costs := service.variable_cost_per_unit * service.volume
      let total_costs := total_variable_costs + fixed_cost_per_service
      let profit := total_revenue - total_costs
      .ok ({ service := service.service_name
             volume := service.volume
             tier_revenues := tier_revenues
             total_revenue := total_revenue
             total_variable_costs := total_variable_costs
             fixed_costs := fixed_cost_per_service
             total_costs := total_costs
             profit := profit }, tier_revenues)

/-- The service loop of CVP.py lines 32-72: processes the services in order,
collecting one row per service into service_data, and threads the
tier_revenues variable, whose value after the loop is the one of the last
processed service (each iteration rebinds it, line 41). -/
def serviceLoop (schedule : Schedule) (fixed_cost_per_service : ℚ) :
    List Service → List (String × ℚ) →
      Except CVPError (List ServiceRow × List (String × ℚ))
  | [], tier_revenues => .ok ([], tier_revenues)
  | service :: rest, _ =>
    match processService schedule fixed_cost_per_service service with
    | .error e => .error e
    | .ok (row, tier_revenues) =>
      match serviceLoop schedule fixed_cost_per_service rest tier_revenues with
      | .error e => .error e
      | .ok (rows, final_tier_revenues) => .ok (row :: rows, final_tier_revenues)

/-- The trailing column names of column_order in CVP.py lines 78-79. -/
def totalsColumns : List String :=
  ["Total Revenue", "Total Variable Costs", "Fixed Costs", "Total Costs", "Profit"]

/-- The engine, CVP.py lines 12-82. The test on the number of services
models the ZeroDivisionError the source raises at line 30 when services is
empty; the final column order is Service, Volume, then the keys of the
tier_revenues dict left over from the last loop iteration, then the totals
columns (lines 78-80). -/
def cvp_analysis_with_full_sliding_fee (services : List Service)
    (sliding_fee_schedule : Schedule) (total_fixed_costs : ℚ) :
    Except CVPError CVPResult :=
  let num_services := services.length
  if num_services = 0 then .error .invalidInput
  else
    let fixed_cost_per_service := total_fixed_costs / (num_services : ℚ)
    match serviceLoop sliding_fee_schedule fixed_cost_per_service services [] with
    | .error e => .error e
    | .ok (service_data, tier_revenues) =>
      .ok { rows := service_data
            columns := ["Service", "Volume"] ++ tier_revenues.map Prod.fst
              ++ totalsColumns }

/-- The arithmetic revenue sum of one service over a tier set: the sum over
all tiers, Full Charges included, of volume times percentage times price.
Used to state what total_revenue equals; on a well-formed tier set the
Option defaults are never taken. -/
def tierRevSum (volume : ℚ) (ts : TierSet) : ℚ :=
  (ts.map (fun p => volume * p.2.percentage.getD 0 * p.2.price.getD 0)).sum

/-- The tier revenues recorded for output: the non Full Charges tiers in
insertion order, each paired with its revenue. -/
def recordedTierRevenues (volume : ℚ) (ts : TierSet) : List (String × ℚ) :=
  (ts.filter (fun p => p.1 != "Full Charges")).map
    (fun p => (p.1, volume * p.2.percentage.getD 0 * p.2.price.getD 0))

/-- A tier entry is well formed when both of its fields are present. -/
def wfTier (p : String × TierValues) : Prop :=
  p.2.percentage.isSome ∧ p.2.price.isSome

instance (p : String × TierValues) : Decidable (wfTier p) := by
  unfold wfTier; infer_instance

/-- The mutable state a call to the engine could touch: the caller's
services list and schedule, as they stand in memory before the call. The
state-threaded re-embedding below passes this state through every step of
the computation, so that an in-place mutation performed by any step would
surface as a changed state component. -/
structure EngineState where
  services : List Service
  schedule : Schedule
deriving DecidableEq, Repr

/-- State-threaded embedding of one service-loop iteration: it reads the
schedule from the state and performs no write, returning the state it was
given. -/
def processServiceSt (st : EngineState) (fixed_cost_per_service : ℚ)
    (service : Service) :
    EngineState × Except CVPError (ServiceRow × List (String × ℚ)) :=
  (st, processService st.schedule fixed_cost_per_service service)

/-- State-threaded embedding of the service loop: the state produced by
each iteration is the one handed to the next. -/
def serviceLoopSt (fixed_cost_per_service : ℚ) :
    EngineState → List Service → List (String × ℚ) →
      EngineState × Except CVPError (List ServiceRow × List (String × ℚ))
  | st, [], tier_revenues => (st, .ok ([], tier_revenues))
  | st, service :: rest, _ =>
    match processServiceSt st fixed_cost_per_service service with
    | (st1, .error e) => (st1, .error e)
    | (st1, .ok (row, tier_revenues)) =>
      match serviceLoopSt fixed_cost_per_service st1 rest tier_revenues with
      | (st2, .error e) => (st2, .error e)
      | (st2, .ok (rows, final_tier_revenues)) =>
        (st2, .ok (row :: rows, final_tier_revenues))

/-- State-threaded embedding of the whole engine call: reads the services
list and the schedule from the state and returns the final state next to
the result. -/
def cvpSt (st : EngineState) (total_fixed_costs : ℚ) :
    EngineState × Except CVPError CVPResult :=
  let num_services := st.services.length
  if num_services = 0 then (st, .error .invalidInput)
  else
    let fixed_cost_per_service := total_fixed_costs / (num_services : ℚ)
    match serviceLoopSt fixed_cost_per_service st st.services [] with
    | (st1, .error e) => (st1, .error e)
    | (st1, .ok (service_data, tier_revenues)) =>
      (st1, .ok { rows := service_data
                  columns := ["Service", "Volume"] ++ tier_revenues.map Prod.fst
                    ++ totalsColumns })

/-- Example input from the specification, section 8: one service A with
volume 100 and unit variable cost 10. -/
def exServices : List Service :=
  [{ service_name := "A", volume := 100, variable_cost_per_unit := 10 }]

/-- Example schedule from the specification, section 8: two tiers for
service A, each taking half the volume. -/
def exSchedule : Schedule :=
  [("A", [("T1", { price := some 10, percentage := some (1/2) }),
          ("T2", { price := some 20, percentage := some (1/2) })])]

/-- The result the engine computes on the section 8 example with total
fixed costs 1000. -/
def exResult : CVPResult :=
  { rows := [{ service := "A", volume := 100,
               tier_revenues := [("T1", 500), ("T2", 1000)],
               total_revenue := 1500, total_variable_costs := 1000,
               fixed_costs := 1000, total_costs := 2000, profit := -500 }],
    columns := ["Service", "Volume", "T1", "T2", "Total Revenue",
                "Total Variable Costs", "Fixed Costs", "Total Costs", "Profit"] }

/-- Two services sharing a fixed cost pool; the second service's tier set
uses different tier names and holds a Full Charges tier, so it exercises
both the folding of Full Charges into the total and the column order taken
from the last processed service. -/
def ex2Services : List Service :=
  [{ service_name := "A", volume := 10, variable_cost_per_unit := 1 },
   { service_name := "B", volume := 20, variable_cost_per_unit := 2 }]

/-- Schedule for the two-service example: A has one tier T1 at full
volume, B has a tier U1 at a quarter of the volume and a Full Charges tier
at three quarters. -/
def ex2Schedule : Schedule :=
  [("A", [("T1", { price := some 5, percentage := some 1 })]),
   ("B", [("U1", { price := some 3, percentage := some (1/4) }),
          ("Full Charges", { price := some 4, percentage := some (3/4) })])]

/-- The result the engine computes on the two-service example with total
fixed costs 200: each service carries 100 of fixed costs, and the columns
follow the tier names of B, the last processed service. -/
def ex2Result : CVPResult :=
  { rows := [{ service := "A", volume := 10, tier_revenues := [("T1", 50)],
               total_revenue := 50, total_variable_costs := 10,
               fixed_costs := 100, total_costs := 110, profit := -60 },
             { service := "B", volume := 20, tier_revenues := [("U1", 15)],
               total_revenue := 75, total_variable_costs := 40,
               fixed_costs := 100, total_costs := 140, profit := -65 }],
    columns := ["Service", "Volume", "U1", "Total Revenue",
                "Total Variable Costs", "Fixed Costs", "Total Costs", "Profit"] }

/-- Services A and X; X has no entry in the two-service schedule, so a run
against ex2Schedule fails with the missing-schedule error naming X. -/
def missServices : List Service :=
  [{ service_name := "A", volume := 10, variable_cost_per_unit := 1 },
   { service_name := "X", volume := 5, variable_cost_per_unit := 1 }]

/-- A schedule whose only tier entry lacks its price field. -/
def malSchedule : Schedule :=
  [("A", [("T1", { price := none, percentage := some (1/2) })])]

/-- A schedule whose tier fractions sum to three tenths, far from one: the
engine still completes normally on it. -/
def badSumSchedule : Schedule :=
  [("A", [("T1", { price := some 10, percentage := some (3/10) })])]

/-- The same service name listed twice with different volumes and costs:
the engine emits one row per occurrence. -/
def dupServices : List Service :=
  [{ service_name := "A", volume := 10, variable_cost_per_unit := 1 },
   { service_name := "A", volume := 30, variable_cost_per_unit := 2 }]

/-- The result the engine computes on the duplicate-name services against
the section 8 schedule with total fixed costs 100: two rows named A, each
computed from its own occurrence, each carrying 50 of fixed costs. -/
def dupResult : CVPResult :=
  { rows := [{ service := "A", volume := 10,
               tier_revenues := [("T1", 50), ("T2", 100)],
               total_revenue := 150, total_variable_costs := 10,
               fixed_costs := 50, total_costs := 60, profit := 90 },
             { service := "A", volume := 30,
               tier_revenues := [("T1", 150), ("T2", 300)],
               total_revenue := 450, total_variable_costs := 60,
               fixed_costs := 50, total_costs := 110, profit := 340 }],
    columns := ["Service", "Volume", "T1", "T2", "Total Revenue",
                "Total Variable Costs", "Fixed Costs", "Total Costs", "Profit"] }

theorem not_wfTier_iff {p : String × TierValues} :
    ¬ wfTier p ↔ p.2.percentage = none ∨ p.2.price = none := by
  unfold wfTier
  rw [not_and_or, Option.not_isSome_iff_eq_none, Option.not_isSome_iff_eq_none]

theorem lookupSched_mem {α : Type} {key : String} {v : α}
    {d : List (String × α)} (h : lookupSched key d = some v) : (key, v) ∈ d := by
  induction d with
  | nil => simp [lookupSched] at h
  | cons p rest ih =>
    obtain ⟨k, w⟩ := p
    by_cases hk : k = key
    · subst hk
      simp [lookupSched] at h
      subst h
      exact List.mem_cons_self _ _
    · simp [lookupSched, hk] at h
      exact List.mem_cons_of_mem _ (ih h)

theorem tierLoop_ok_inv {volume T : ℚ} {R : List (String × ℚ)} :
    ∀ {ts : TierSet} {tot : ℚ} {revs : List (String × ℚ)},
      tierLoop volume ts tot revs = .ok (T, R) →
      T = tot + tierRevSum volume ts ∧ R = revs ++ recordedTierRevenues volume ts := by
  intro ts
  induction ts with
  | nil =>
    intro tot revs h
    simp [tierLoop] at h
    simp [tierRevSum, recordedTierRevenues, h.1, h.2]
  | cons p rest ih =>
    intro tot revs h
    obtain ⟨tier, pr, pc⟩ := p
    cases pc with
    | none => simp [tierLoop] at h
    | some pct =>
      cases pr with
      | none => simp [tierLoop] at h
      | some price =>
        rw [tierLoop] at h
        obtain ⟨h1, h2⟩ := ih h
        by_cases hFC : tier = "Full Charges"
        · subst hFC
          constructor
          · rw [h1]; simp [tierRevSum]; ring
          · rw [h2]; simp [recordedTierRevenues]
        · constructor
          · rw [h1]; simp [tierRevSum]; ring
          · rw [h2]; simp [recordedTierRevenues, hFC, List.filter_cons]

theorem tierLoop_ok_of_wf {volume : ℚ} :
    ∀ {ts : TierSet} {tot : ℚ} {revs : List (String × ℚ)},
      (∀ p ∈ ts, wfTier p) →
      ∃ T R, tierLoop volume ts tot revs = .ok (T, R) := by
  intro ts
  induction ts with
  | nil => intro tot revs _; exact ⟨tot, revs, rfl⟩
  | cons p rest ih =>
    intro tot revs hwf
    obtain ⟨tier, pr, pc⟩ := p
    have hhd := hwf _ (List.mem_cons_self _ _)
    obtain ⟨hpc, hpr⟩ := hhd
    cases pc with
    | none => simp at hpc
    | some pct =>
      cases pr with
      | none => simp at hpr
      | some price =>
        rw [tierLoop]
        exact ih fun q hq => hwf q (List.mem_cons_of_mem _ hq)

theorem tierLoop_error_of_malformed {volume : ℚ} :
    ∀ {ts : TierSet} {tot : ℚ} {revs : List (String × ℚ)},
      (∃ p ∈ ts, p.2.percentage = none ∨ p.2.price = none) →
      ∃ a b, tierLoop volume ts tot revs = .error (.malformedTier a b) := by
  intro ts
  induction ts with
  | nil => intro tot revs h; simp at h
  | cons p rest ih =>
    intro tot revs h
    obtain ⟨tier, pr, pc⟩ := p
    cases pc with
    | none => exact ⟨tier, "percentage", by rw [tierLoop]⟩
    | some pct =>
      cases pr with
      | none => exact ⟨tier, "price", by rw [tierLoop]⟩
      | some price =>
        rw [tierLoop]
        apply ih
        obtain ⟨q, hq, hbad⟩ := h
        rcases List.mem_cons.mp hq with heq | hmem
        · subst heq; simp at hbad
        · exact ⟨q, hmem, hbad⟩

theorem tierLoop_shape (volume : ℚ) (ts : TierSet) (tot : ℚ)
    (revs : List (String × ℚ)) :
    (∃ T R, tierLoop volume ts tot revs = .ok (T, R)) ∨
    ∃ a b, tierLoop volume ts tot revs = .error (.malformedTier a b) := by
  by_cases h : ∀ p ∈ ts, wfTier p
  · exact Or.inl (tierLoop_ok_of_wf h)
  · right
    push_neg at h
    obtain ⟨q, hq, hbad⟩ := h
    exact tierLoop_error_of_malformed ⟨q, hq, not_wfTier_iff.mp hbad⟩

theorem processService_ok_inv {schedule : Schedule} {f : ℚ} {s : Service}
    {row : ServiceRow} {tr : List (String × ℚ)}
    (h : processService schedule f s = .ok (row, tr)) :
    ∃ ts T, lookupSched s.service_name schedule = some ts ∧
      tierLoop s.volume ts 0 [] = .ok (T, tr) ∧
      row = { service := s.service_name
              volume := s.volume
              tier_revenues := tr
              total_revenue := T
              total_variable_costs := s.variable_cost_per_unit * s.volume
              fixed_costs := f
              total_costs := s.variable_cost_per_unit * s.volume + f
              profit := T - (s.variable_cost_per_unit * s.volume + f) } := by
  cases hl : lookupSched s.service_name schedule with
  | none => simp [processService, hl] at h
  | some ts =>
    cases ht : tierLoop s.volume ts 0 [] with
    | error e => simp [processService, hl, ht] at h
    | ok out =>
      obtain ⟨T, R⟩ := out
      simp only [processService, hl, ht] at h
      obtain ⟨hrow, htr⟩ := Prod.mk.injEq .. ▸ Except.ok.injEq .. ▸ h
      subst htr
      exact ⟨ts, T, rfl, ht, hrow.symm⟩

theorem processService_error_of_missing {schedule : Schedule} {f : ℚ}
    {s : Service} (h : lookupSched s.service_name schedule = none) :
    processService schedule f s = .error (.missingSchedule s.service_name) := by
  simp [processService, h]

theorem processService_ok_of_wf {schedule : Schedule} {f : ℚ} {s : Service}
    {ts : TierSet} (hl : lookupSched s.service_name schedule = some ts)
    (hwf : ∀ p ∈ ts, wfTier p) :
    ∃ out, processService schedule f s = .ok out := by
  obtain ⟨T, R, ht⟩ := @tierLoop_ok_of_wf s.volume ts 0 [] hwf
  simp only [processService, hl, ht]
  exact ⟨_, rfl⟩

theorem serviceLoop_ok_length {schedule : Schedule} {f : ℚ} :
    ∀ {svs : List Service} {tr0 : List (String × ℚ)} {rows : List ServiceRow}
      {lt : List (String × ℚ)},
      serviceLoop schedule f svs tr0 = .ok (rows, lt) → rows.length = svs.length := by
  intro svs
  induction svs with
  | nil =>
    intro tr0 rows lt h
    simp [serviceLoop] at h
    simp [h.1]
  | cons s rest ih =>
    intro tr0 rows lt h
    rw [serviceLoop] at h
    cases hps : processService schedule f s with
    | error e => rw [hps] at h; exact absurd h (by simp)
    | ok out =>
      obtain ⟨row, tr⟩ := out
      rw [hps] at h
      dsimp only at h
      cases hsl : serviceLoop schedule f rest tr with
      | error e => rw [hsl] at h; exact absurd h (by simp)
      | ok out2 =>
        obtain ⟨rows2, lt2⟩ := out2
        rw [hsl] at h
        dsimp only at h
        injection h with hpair
        injection hpair with h1 h2
        subst h1
        subst h2
        simp [ih hsl]

theorem serviceLoop_ok_get {schedule : Schedule} {f : ℚ} :
    ∀ {svs : List Service} {tr0 : List (String × ℚ)} {rows : List ServiceRow}
      {lt : List (String × ℚ)},
      serviceLoop schedule f svs tr0 = .ok (rows, lt) →
      ∀ i, i < svs.length →
        ∃ tr, processService schedule f (svs.getD i default) =
          .ok (rows.getD i default, tr) := by
  intro svs
  induction svs with
  | nil => intro tr0 rows lt _ i hi; simp at hi
  | cons s rest ih =>
    intro tr0 rows lt h i hi
    rw [serviceLoop] at h
    cases hps : processService schedule f s with
    | error e => rw [hps] at h; exact absurd h (by simp)
    | ok out =>
      obtain ⟨row, tr⟩ := out
      rw [hps] at h
      dsimp only at h
      cases hsl : serviceLoop schedule f rest tr with
      | error e => rw [hsl] at h; exact absurd h (by simp)
      | ok out2 =>
        obtain ⟨rows2, lt2⟩ := out2
        rw [hsl] at h
        dsimp only at h
        injection h with hpair
        injection hpair with h1 h2
        subst h1
        subst h2
        cases i with
        | zero => exact ⟨tr, by simpa using hps⟩
        | succ n =>
          simp only [List.getD_cons_succ]
          exact ih hsl n (by simpa using hi)

theorem serviceLoop_ok_mem {schedule : Schedule} {f : ℚ} :
    ∀ {svs : List Service} {tr0 : List (String × ℚ)} {rows : List ServiceRow}
      {lt : List (String × ℚ)},
      serviceLoop schedule f svs tr0 = .ok (rows, lt) →
      ∀ row ∈ rows, ∃ s ∈ svs, ∃ tr, processService schedule f s = .ok (row, tr) := by
  intro svs
  induction svs with
  | nil =>
    intro tr0 rows lt h row hrow
    simp [serviceLoop] at h
    rw [h.1] at hrow
    simp at hrow
  | cons s rest ih =>
    intro tr0 rows lt h row hrow
    rw [serviceLoop] at h
    cases hps : processService schedule f s with
    | error e => rw [hps] at h; exact absurd h (by simp)
    | ok out =>
      obtain ⟨row0, tr⟩ := out
      rw [hps] at h
      dsimp only at h
      cases hsl : serviceLoop schedule f rest tr with
      | error e => rw [hsl] at h; exact absurd h (by simp)
      | ok out2 =>
        obtain ⟨rows2, lt2⟩ := out2
        rw [hsl] at h
        dsimp only at h
        injection h with hpair
        injection hpair with h1 h2
        subst h1
        subst h2
        rcases List.mem_cons.mp hrow with heq | hmem
        · subst heq; exact ⟨s, List.mem_cons_self _ _, tr, hps⟩
        · obtain ⟨s2, hs2, tr2, hp2⟩ := ih hsl row hmem
          exact ⟨s2, List.mem_cons_of_mem _ hs2, tr2, hp2⟩

theorem serviceLoop_ok_last {schedule : Schedule} {f : ℚ} :
    ∀ {svs : List Service} {tr0 : List (String × ℚ)} {rows : List ServiceRow}
      {lt : List (String × ℚ)},
      serviceLoop schedule f svs tr0 = .ok (rows, lt) →
      ∀ hne : svs ≠ [],
        ∃ row, processService schedule f (svs.getLast hne) = .ok (row, lt) := by
  intro svs
  induction svs with
  | nil => intro tr0 rows lt _ hne; exact absurd rfl hne
  | cons s rest ih =>
    intro tr0 rows lt h hne
    rw [serviceLoop] at h
    cases hps : processService schedule f s with
    | error e => rw [hps] at h; exact absurd h (by simp)
    | ok out =>
      obtain ⟨row0, tr⟩ := out
      rw [hps] at h
      dsimp only at h
      cases hsl : serviceLoop schedule f rest tr with
      | error e => rw [hsl] at h; exact absurd h (by simp)
      | ok out2 =>
        obtain ⟨rows2, lt2⟩ := out2
        rw [hsl] at h
        dsimp only at h
        injection h with hpair
        injection hpair with h1 h2
        subst h1
        subst h2
        by_cases hr : rest = []
        · subst hr
          rw [serviceLoop] at hsl
          injection hsl with hpair2
          injection hpair2 with hA hB
          subst hB
          rw [List.getLast_singleton]
          exact ⟨row0, hps⟩
        · rw [List.getLast_cons hr]
          exact ih hsl hr

theorem serviceLoop_ok_of_wf {schedule : Schedule} {f : ℚ} :
    ∀ {svs : List Service},
      (∀ s ∈ svs, ∃ ts, lookupSched s.service_name schedule = some ts ∧
        ∀ p ∈ ts, wfTier p) →
      ∀ tr0, ∃ rows lt, serviceLoop schedule f svs tr0 = .ok (rows, lt) := by
  intro svs
  induction svs with
  | nil => intro _ tr0; exact ⟨[], tr0, rfl⟩
  | cons s rest ih =>
    intro hwf tr0
    obtain ⟨ts, hl, hts⟩ := hwf s (List.mem_cons_self _ _)
    obtain ⟨out, hps⟩ := processService_ok_of_wf (f := f) hl hts
    obtain ⟨row, tr⟩ := out
    obtain ⟨rows, lt, hsl⟩ :=
      ih (fun q hq => hwf q (List.mem_cons_of_mem _ hq)) tr
    refine ⟨row :: rows, lt, ?_⟩
    rw [serviceLoop, hps]
    dsimp only
    rw [hsl]

theorem serviceLoop_error_of_missing {schedule : Schedule} {f : ℚ} :
    ∀ {svs : List Service} {tr0 : List (String × ℚ)},
      (∀ e ∈ schedule, ∀ p ∈ e.2, wfTier p) →
      (∃ s ∈ svs, lookupSched s.service_name schedule = none) →
      ∃ s ∈ svs, lookupSched s.service_name schedule = none ∧
        serviceLoop schedule f svs tr0 = .error (.missingSchedule s.service_name) := by
  intro svs
  induction svs with
  | nil => intro tr0 _ hmiss; simp at hmiss
  | cons s rest ih =>
    intro tr0 hwf hmiss
    cases hl : lookupSched s.service_name schedule with
    | none =>
      refine ⟨s, List.mem_cons_self _ _, hl, ?_⟩
      rw [serviceLoop, processService_error_of_missing hl]
    | some ts =>
      have hts : ∀ p ∈ ts, wfTier p := fun p hp => hwf _ (lookupSched_mem hl) p hp
      obtain ⟨out, hps⟩ := processService_ok_of_wf (f := f) hl hts
      obtain ⟨row, tr⟩ := out
      have hmiss2 : ∃ s2 ∈ rest, lookupSched s2.service_name schedule = none := by
        obtain ⟨s2, hs2, hnone⟩ := hmiss
        rcases List.mem_cons.mp hs2 with heq | hmem
        · subst heq; rw [hl] at hnone; exact absurd hnone (by simp)
        · exact ⟨s2, hmem, hnone⟩
      obtain ⟨s2, hs2, hnone, hsl⟩ := @ih tr hwf hmiss2
      refine ⟨s2, List.mem_cons_of_mem _ hs2, hnone, ?_⟩
      rw [serviceLoop, hps]
      dsimp only
      rw [hsl]

theorem serviceLoop_error_of_malformed {schedule : Schedule} {f : ℚ} :
    ∀ {svs : List Service} {tr0 : List (String × ℚ)},
      (∀ s ∈ svs, (lookupSched s.service_name schedule).isSome) →
      (∃ s ∈ svs, ∃ ts, lookupSched s.service_name schedule = some ts ∧
        ∃ p ∈ ts, p.2.percentage = none ∨ p.2.price = none) →
      ∃ a b, serviceLoop schedule f svs tr0 = .error (.malformedTier a b) := by
  intro svs
  induction svs with
  | nil => intro tr0 _ hbad; simp at hbad
  | cons s rest ih =>
    intro tr0 hpres hbad
    obtain ⟨ts, hl⟩ := Option.isSome_iff_exists.mp (hpres s (List.mem_cons_self _ _))
    rcases tierLoop_shape s.volume ts 0 [] with ⟨T, R, ht⟩ | ⟨a, b, ht⟩
    · have hps : processService schedule f s =
          .ok ({ service := s.service_name
                 volume := s.volume
                 tier_revenues := R
                 total_revenue := T
                 total_variable_costs := s.variable_cost_per_unit * s.volume
                 fixed_costs := f
                 total_costs := s.variable_cost_per_unit * s.volume + f
                 profit := T - (s.variable_cost_per_unit * s.volume + f) }, R) := by
        simp [processService, hl, ht]
      have hbad2 : ∃ s2 ∈ rest, ∃ ts2, lookupSched s2.service_name schedule = some ts2 ∧
          ∃ p ∈ ts2, p.2.percentage = none ∨ p.2.price = none := by
        obtain ⟨s2, hs2, ts2, hl2, hp⟩ := hbad
        rcases List.mem_cons.mp hs2 with heq | hmem
        · rw [heq] at hl2
          rw [hl] at hl2
          obtain rfl : ts = ts2 := by injection hl2
          obtain ⟨a, b, ht2⟩ := @tierLoop_error_of_malformed s.volume ts 0 [] hp
          rw [ht] at ht2
          exact absurd ht2 (by simp)
        · exact ⟨s2, hmem, ts2, hl2, hp⟩
      obtain ⟨a, b, hsl⟩ := @ih R
        (fun q hq => hpres q (List.mem_cons_of_mem _ hq)) hbad2
      refine ⟨a, b, ?_⟩
      rw [serviceLoop, hps]
      dsimp only
      rw [hsl]
    · refine ⟨a, b, ?_⟩
      rw [serviceLoop]
      have hps : processService schedule f s = .error (.malformedTier a b) := by
        simp [processService, hl, ht]
      rw [hps]

theorem cvp_ok_inv {svs : List Service} {sched : Schedule} {F : ℚ}
    {res : CVPResult}
    (h : cvp_analysis_with_full_sliding_fee svs sched F = .ok res) :
    svs ≠ [] ∧ ∃ lt,
      serviceLoop sched (F / (svs.length : ℚ)) svs [] = .ok (res.rows, lt) ∧
      res.columns = ["Service", "Volume"] ++ lt.map Prod.fst ++ totalsColumns := by
  by_cases hz : svs.length = 0
  · rw [cvp_analysis_with_full_sliding_fee] at h
    simp [hz] at h
  · refine ⟨by simpa using hz, ?_⟩
    rw [cvp_analysis_with_full_sliding_fee] at h
    simp only [hz, if_false] at h
    cases hsl : serviceLoop sched (F / (svs.length : ℚ)) svs [] with
    | error e => rw [hsl] at h; exact absurd h (by simp)
    | ok out =>
      obtain ⟨rows, lt⟩ := out
      rw [hsl] at h
      dsimp only at h
      injection h with hres
      exact ⟨lt, by rw [← hres], by rw [← hres]⟩

theorem cvp_ok_of {svs : List Service} {sched : Schedule} {F : ℚ}
    {rows : List ServiceRow} {lt : List (String × ℚ)} (hne : svs ≠ [])
    (h : serviceLoop sched (F / (svs.length : ℚ)) svs [] = .ok (rows, lt)) :
    cvp_analysis_with_full_sliding_fee svs sched F =
      .ok { rows := rows
            columns := ["Service", "Volume"] ++ lt.map Prod.fst ++ totalsColumns } := by
  have hz : ¬ svs.length = 0 := by simpa using hne
  rw [cvp_analysis_with_full_sliding_fee]
  simp only [hz, if_false]
  rw [h]

theorem serviceLoopSt_eq (f : ℚ) :
    ∀ (svs : List Service) (st : EngineState) (tr0 : List (String × ℚ)),
      serviceLoopSt f st svs tr0 = (st, serviceLoop st.schedule f svs tr0) := by
  intro svs
  induction svs with
  | nil => intro st tr0; rfl
  | cons s rest ih =>
    intro st tr0
    rw [serviceLoopSt, serviceLoop, processServiceSt]
    cases hps : processService st.schedule f s with
    | error e => rfl
    | ok out =>
      obtain ⟨row, tr⟩ := out
      dsimp only
      rw [ih st tr]
      cases hsl : serviceLoop st.schedule f rest tr with
      | error e => rfl
      | ok out2 => rfl

theorem cvp_fixed_sum {svs : List Service} {sched : Schedule} {F : ℚ}
    {res : CVPResult}
    (h : cvp_analysis_with_full_sliding_fee svs sched F = .ok res) :
    (res.rows.map (fun r => r.fixed_costs)).sum = F := by
  obtain ⟨hne, lt, hsl, hcols⟩ := cvp_ok_inv h
  have hlen := serviceLoop_ok_length hsl
  have hz : svs.length ≠ 0 := fun h0 => hne (List.length_eq_zero.mp h0)
  have hzq : (svs.length : ℚ) ≠ 0 := Nat.cast_ne_zero.mpr hz
  have hmap : ∀ x ∈ res.rows.map (fun r => r.fixed_costs),
      x = F / (svs.length : ℚ) := by
    intro x hx
    obtain ⟨r, hr, hxr⟩ := List.mem_map.mp hx
    obtain ⟨s, hs, tr, hps⟩ := serviceLoop_ok_mem hsl r hr
    obtain ⟨ts, T, hl, ht, hrow⟩ := processService_ok_inv hps
    rw [← hxr, hrow]
  rw [List.eq_replicate_of_mem hmap, List.sum_replicate, List.length_map, hlen,
    nsmul_eq_mul, mul_comm]
  exact div_mul_cancel₀ F hzq

/-- C1: on every accepted input, each emitted row satisfies profit equal to
total revenue minus total variable costs minus the allocated fixed cost,
exactly; the row's total variable costs equal the unit variable cost of the
corresponding service times its volume, and its allocated fixed cost equals
the total fixed costs divided by the number of services. -/
theorem claim_C1_profit_identity (svs : List Service) (sched : Schedule)
    (F : ℚ) (res : CVPResult)
    (h : cvp_analysis_with_full_sliding_fee svs sched F = .ok res)
    (i : ℕ) (hi : i < svs.length) :
    (res.rows.getD i default).profit =
        (res.rows.getD i default).total_revenue -
          (res.rows.getD i default).total_variable_costs -
          (res.rows.getD i default).fixed_costs ∧
      (res.rows.getD i default).total_variable_costs =
        (svs.getD i default).variable_cost_per_unit * (svs.getD i default).volume ∧
      (res.rows.getD i default).fixed_costs = F / (svs.length : ℚ) := by
  obtain ⟨hne, lt, hsl, hcols⟩ := cvp_ok_inv h
  obtain ⟨tr, hps⟩ := serviceLoop_ok_get hsl i hi
  obtain ⟨ts, T, hl, ht, hrow⟩ := processService_ok_inv hps
  rw [hrow]
  dsimp only
  exact ⟨by ring, rfl, rfl⟩

theorem claim_C1_profit_identity_witness :
    (exResult.rows.getD 0 default).profit =
        (exResult.rows.getD 0 default).total_revenue -
          (exResult.rows.getD 0 default).total_variable_costs -
          (exResult.rows.getD 0 default).fixed_costs ∧
      (exResult.rows.getD 0 default).total_variable_costs =
        (exServices.getD 0 default).variable_cost_per_unit *
          (exServices.getD 0 default).volume ∧
      (exResult.rows.getD 0 default).fixed_costs = 1000 / (exServices.length : ℚ) :=
  claim_C1_profit_identity exServices exSchedule 1000 exResult
    (by with_unfolding_all rfl) 0 (by decide)

/-- C2: on every accepted input, each row's total revenue is the sum over
all tiers of the corresponding service's tier set, a tier named Full
Charges included, of volume times volume fraction times unit price; yet the
per-tier revenues recorded in the row cover exactly the tiers whose name is
not Full Charges, in insertion order. -/
theorem claim_C2_revenue_includes_full_charges (svs : List Service)
    (sched : Schedule) (F : ℚ) (res : CVPResult)
    (h : cvp_analysis_with_full_sliding_fee svs sched F = .ok res)
    (i : ℕ) (hi : i < svs.length) :
    ∃ ts, lookupSched (svs.getD i default).service_name sched = some ts ∧
      (res.rows.getD i default).total_revenue =
        tierRevSum (svs.getD i default).volume ts ∧
      (res.rows.getD i default).tier_revenues =
        recordedTierRevenues (svs.getD i default).volume ts := by
  obtain ⟨hne, lt, hsl, hcols⟩ := cvp_ok_inv h
  obtain ⟨tr, hps⟩ := serviceLoop_ok_get hsl i hi
  obtain ⟨ts, T, hl, ht, hrow⟩ := processService_ok_inv hps
  obtain ⟨hT, hR⟩ := tierLoop_ok_inv ht
  refine ⟨ts, hl, ?_, ?_⟩
  · rw [hrow]
    dsimp only
    rw [hT, zero_add]
  · rw [hrow]
    dsimp only
    rw [hR, List.nil_append]

theorem claim_C2_revenue_includes_full_charges_witness :
    ∃ ts, lookupSched (ex2Services.getD 1 default).service_name ex2Schedule = some ts ∧
      (ex2Result.rows.getD 1 default).total_revenue =
        tierRevSum (ex2Services.getD 1 default).volume ts ∧
      (ex2Result.rows.getD 1 default).tier_revenues =
        recordedTierRevenues (ex2Services.getD 1 default).volume ts :=
  claim_C2_revenue_includes_full_charges ex2Services ex2Schedule 200 ex2Result
    (by with_unfolding_all rfl) 1 (by decide)

/-- C3: on every accepted input the allocated fixed costs of the emitted
rows sum exactly to the total fixed costs, every row carrying the identical
share of total fixed costs divided by the number of services. -/
theorem claim_C3_fixed_cost_sum (svs : List Service) (sched : Schedule)
    (F : ℚ) (res : CVPResult)
    (h : cvp_analysis_with_full_sliding_fee svs sched F = .ok res) :
    (res.rows.map (fun r => r.fixed_costs)).sum = F ∧
      ∀ r ∈ res.rows, r.fixed_costs = F / (svs.length : ℚ) := by
  obtain ⟨hne, lt, hsl, hcols⟩ := cvp_ok_inv h
  refine ⟨cvp_fixed_sum h, ?_⟩
  intro r hr
  obtain ⟨s, hs, tr, hps⟩ := serviceLoop_ok_mem hsl r hr
  obtain ⟨ts, T, hl, ht, hrow⟩ := processService_ok_inv hps
  rw [hrow]

theorem claim_C3_fixed_cost_sum_witness :
    (ex2Result.rows.map (fun r => r.fixed_costs)).sum = 200 ∧
      ∀ r ∈ ex2Result.rows, r.fixed_costs = 200 / (ex2Services.length : ℚ) :=
  claim_C3_fixed_cost_sum ex2Services ex2Schedule 200 ex2Result
    (by with_unfolding_all rfl)

/-- C4: called on an empty services sequence the engine fails with the
invalid-input error and returns no result. -/
theorem claim_C4_empty_services (sched : Schedule) (F : ℚ) :
    cvp_analysis_with_full_sliding_fee [] sched F = .error .invalidInput := rfl

/-- C5: when some service's name has no entry in the schedule (the tier
entries of the schedule being well formed), the engine fails with the
missing-schedule error naming a service of the input whose name is absent,
and returns no result. -/
theorem claim_C5_missing_schedule (svs : List Service) (sched : Schedule)
    (F : ℚ) (hwf : ∀ e ∈ sched, ∀ p ∈ e.2, wfTier p)
    (hmiss : ∃ s ∈ svs, lookupSched s.service_name sched = none) :
    ∃ s ∈ svs, lookupSched s.service_name sched = none ∧
      cvp_analysis_with_full_sliding_fee svs sched F =
        .error (.missingSchedule s.service_name) := by
  have hne : svs ≠ [] := by
    obtain ⟨s, hs, _⟩ := hmiss
    intro h0
    subst h0
    simp at hs
  have hz : ¬ svs.length = 0 := fun h0 => hne (List.length_eq_zero.mp h0)
  obtain ⟨s, hs, hnone, hsl⟩ :=
    @serviceLoop_error_of_missing sched (F / (svs.length : ℚ)) svs [] hwf hmiss
  refine ⟨s, hs, hnone, ?_⟩
  rw [cvp_analysis_with_full_sliding_fee]
  simp only [hz, if_false]
  rw [hsl]

theorem claim_C5_missing_schedule_witness :
    ∃ s ∈ missServices, lookupSched s.service_name ex2Schedule = none ∧
      cvp_analysis_with_full_sliding_fee missServices ex2Schedule 50 =
        .error (.missingSchedule s.service_name) :=
  claim_C5_missing_schedule missServices ex2Schedule 50 (by decide) (by decide)

/-- C6: when some tier entry of a service in the input lacks its price or
its volume-fraction field (every service name being present in the
schedule), the engine fails with a malformed-tier error and returns no
result. -/
theorem claim_C6_malformed_tier (svs : List Service) (sched : Schedule)
    (F : ℚ) (hpres : ∀ s ∈ svs, (lookupSched s.service_name sched).isSome)
    (hbad : ∃ s ∈ svs, ∃ ts, lookupSched s.service_name sched = some ts ∧
      ∃ p ∈ ts, p.2.percentage = none ∨ p.2.price = none) :
    ∃ a b, cvp_analysis_with_full_sliding_fee svs sched F =
      .error (.malformedTier a b) := by
  have hne : svs ≠ [] := by
    obtain ⟨s, hs, _⟩ := hbad
    intro h0
    subst h0
    simp at hs
  have hz : ¬ svs.length = 0 := fun h0 => hne (List.length_eq_zero.mp h0)
  obtain ⟨a, b, hsl⟩ :=
    @serviceLoop_error_of_malformed sched (F / (svs.length : ℚ)) svs [] hpres hbad
  refine ⟨a, b, ?_⟩
  rw [cvp_analysis_with_full_sliding_fee]
  simp only [hz, if_false]
  rw [hsl]

theorem claim_C6_malformed_tier_witness :
    ∃ a b, cvp_analysis_with_full_sliding_fee exServices malSchedule 7 =
      .error (.malformedTier a b) :=
  claim_C6_malformed_tier exServices malSchedule 7 (by decide) (by decide)

/-- C7: on every accepted input the tier-revenue columns of the emitted
table are exactly the names of the non Full Charges tiers of the last
processed service's tier set, in that tier set's insertion order, placed
between the Volume column and the totals columns, whatever the tier sets of
the earlier services were. -/
theorem claim_C7_columns_from_last_service (svs : List Service)
    (sched : Schedule) (F : ℚ) (res : CVPResult)
    (h : cvp_analysis_with_full_sliding_fee svs sched F = .ok res)
    (hne : svs ≠ []) :
    ∃ ts, lookupSched (svs.getLast hne).service_name sched = some ts ∧
      res.columns = ["Service", "Volume"] ++
        (ts.filter (fun p => p.1 != "Full Charges")).map Prod.fst ++
        totalsColumns := by
  obtain ⟨_, lt, hsl, hcols⟩ := cvp_ok_inv h
  obtain ⟨row, hps⟩ := serviceLoop_ok_last hsl hne
  obtain ⟨ts, T, hl, ht, hrow⟩ := processService_ok_inv hps
  obtain ⟨hT, hR⟩ := tierLoop_ok_inv ht
  refine ⟨ts, hl, ?_⟩
  rw [hcols]
  have hlt : lt = recordedTierRevenues (svs.getLast hne).volume ts := by
    rw [hR, List.nil_append]
  rw [hlt]
  simp [recordedTierRevenues, List.map_map, Function.comp]

theorem claim_C7_columns_from_last_service_witness :
    ∃ ts, lookupSched ((ex2Services.getLast (by decide)).service_name)
        ex2Schedule = some ts ∧
      ex2Result.columns = ["Service", "Volume"] ++
        (ts.filter (fun p => p.1 != "Full Charges")).map Prod.fst ++
        totalsColumns :=
  claim_C7_columns_from_last_service ex2Services ex2Schedule 200 ex2Result
    (by with_unfolding_all rfl) (by decide)

/-- C8: on a structurally valid input whose tier volume fractions do not
sum to one for some service, the engine raises no error and completes
normally, and each row's total revenue is simply the arithmetic sum over
the given fractions. -/
theorem claim_C8_no_fraction_sum_validation (svs : List Service)
    (sched : Schedule) (F : ℚ) (hne : svs ≠ [])
    (hvalid : ∀ s ∈ svs, ∃ ts, lookupSched s.service_name sched = some ts ∧
      ∀ p ∈ ts, wfTier p)
    (_hbadsum : ∃ s ∈ svs, ∃ ts, lookupSched s.service_name sched = some ts ∧
      (ts.map (fun p => p.2.percentage.getD 0)).sum ≠ 1) :
    ∃ res, cvp_analysis_with_full_sliding_fee svs sched F = .ok res ∧
      ∀ i, i < svs.length → ∃ ts,
        lookupSched (svs.getD i default).service_name sched = some ts ∧
        (res.rows.getD i default).total_revenue =
          tierRevSum (svs.getD i default).volume ts := by
  obtain ⟨rows, lt, hsl⟩ :=
    @serviceLoop_ok_of_wf sched (F / (svs.length : ℚ)) svs hvalid []
  refine ⟨_, cvp_ok_of hne hsl, ?_⟩
  intro i hi
  obtain ⟨tr, hps⟩ := serviceLoop_ok_get hsl i hi
  obtain ⟨ts, T, hl, ht, hrow⟩ := processService_ok_inv hps
  obtain ⟨hT, hR⟩ := tierLoop_ok_inv ht
  refine ⟨ts, hl, ?_⟩
  dsimp only
  rw [hrow]
  dsimp only
  rw [hT, zero_add]

theorem claim_C8_no_fraction_sum_validation_witness :
    ∃ res, cvp_analysis_with_full_sliding_fee exServices badSumSchedule 40 =
        .ok res ∧
      ∀ i, i < exServices.length → ∃ ts,
        lookupSched (exServices.getD i default).service_name badSumSchedule =
          some ts ∧
        (res.rows.getD i default).total_revenue =
          tierRevSum (exServices.getD i default).volume ts :=
  claim_C8_no_fraction_sum_validation exServices badSumSchedule 40 (by decide)
    (by decide) (by with_unfolding_all decide)

/-- C9: a call to the engine leaves its inputs unchanged: the state-threaded
run of the computation returns the services list and the schedule exactly
as they were handed in, next to a result that is a pure function of those
inputs. -/
theorem claim_C9_no_input_mutation (st : EngineState) (F : ℚ) :
    cvpSt st F =
      (st, cvp_analysis_with_full_sliding_fee st.services st.schedule F) := by
  rw [cvpSt, cvp_analysis_with_full_sliding_fee]
  by_cases hz : st.services.length = 0
  · simp [hz]
  · simp only [hz, if_false]
    rw [serviceLoopSt_eq]
    cases hsl : serviceLoop st.schedule (F / (st.services.length : ℚ))
        st.services [] with
    | error e => rfl
    | ok out =>
      obtain ⟨rows, lt⟩ := out
      rfl

theorem map_eq_of_getD {α β γ : Type} [Inhabited α] [Inhabited β]
    (f : α → γ) (g : β → γ) :
    ∀ (l1 : List α) (l2 : List β), l1.length = l2.length →
      (∀ i, i < l2.length → f (l1.getD i default) = g (l2.getD i default)) →
      l1.map f = l2.map g := by
  intro l1
  induction l1 with
  | nil =>
    intro l2 hlen _
    cases l2 with
    | nil => rfl
    | cons b l2 => simp at hlen
  | cons a l1 ih =>
    intro l2 hlen hpt
    cases l2 with
    | nil => simp at hlen
    | cons b l2 =>
      have h0 : f a = g b := by simpa using hpt 0 (by simp)
      have htail : l1.map f = l2.map g :=
        ih l2 (by simpa using hlen)
          (fun i hi => by simpa using hpt (i + 1) (by simpa using hi))
      simp [h0, htail]

/-- C10: the engine enforces no uniqueness of service names: on every
accepted input it emits exactly one row per occurrence in the services
sequence, in order; the row names follow the sequence occurrence by
occurrence, so a name occurring k times yields k rows; each row is computed
from its own occurrence's volume and unit variable cost; and the fixed-cost
divisor is the length of the sequence counting duplicates, so the fixed
costs of the rows still sum to the total fixed costs. -/
theorem claim_C10_duplicate_names (svs : List Service) (sched : Schedule)
    (F : ℚ) (res : CVPResult)
    (h : cvp_analysis_with_full_sliding_fee svs sched F = .ok res) :
    res.rows.length = svs.length ∧
      res.rows.map (fun r => r.service) = svs.map (fun s => s.service_name) ∧
      (∀ n : String, res.rows.countP (fun r => r.service == n) =
        svs.countP (fun s => s.service_name == n)) ∧
      (∀ i, i < svs.length →
        (res.rows.getD i default).volume = (svs.getD i default).volume ∧
        (res.rows.getD i default).total_variable_costs =
          (svs.getD i default).variable_cost_per_unit *
            (svs.getD i default).volume) ∧
      (res.rows.map (fun r => r.fixed_costs)).sum = F := by
  obtain ⟨hne, lt, hsl, hcols⟩ := cvp_ok_inv h
  have hlen := serviceLoop_ok_length hsl
  have hrow : ∀ i, i < svs.length →
      (res.rows.getD i default).service = (svs.getD i default).service_name ∧
      (res.rows.getD i default).volume = (svs.getD i default).volume ∧
      (res.rows.getD i default).total_variable_costs =
        (svs.getD i default).variable_cost_per_unit * (svs.getD i default).volume := by
    intro i hi
    obtain ⟨tr, hps⟩ := serviceLoop_ok_get hsl i hi
    obtain ⟨ts, T, hl, ht, hr⟩ := processService_ok_inv hps
    rw [hr]
    exact ⟨rfl, rfl, rfl⟩
  have hmap : res.rows.map (fun r => r.service) =
      svs.map (fun s => s.service_name) :=
    map_eq_of_getD _ _ res.rows svs hlen (fun i hi => (hrow i hi).1)
  refine ⟨hlen, hmap, ?_, fun i hi => ⟨(hrow i hi).2.1, (hrow i hi).2.2⟩,
    cvp_fixed_sum h⟩
  intro n
  have hcong := congrArg (List.countP (fun x => x == n)) hmap
  simpa [List.countP_map, Function.comp] using hcong

theorem claim_C10_duplicate_names_witness :
    dupResult.rows.length = dupServices.length ∧
      dupResult.rows.map (fun r => r.service) =
        dupServices.map (fun s => s.service_name) ∧
      (∀ n : String, dupResult.rows.countP (fun r => r.service == n) =
        dupServices.countP (fun s => s.service_name == n)) ∧
      (∀ i, i < dupServices.length →
        (dupResult.rows.getD i default).volume =
          (dupServices.getD i default).volume ∧
        (dupResult.rows.getD i default).total_variable_costs =
          (dupServices.getD i default).variable_cost_per_unit *
            (dupServices.getD i default).volume) ∧
      (dupResult.rows.map (fun r => r.fixed_costs)).sum = 100 :=
  claim_C10_duplicate_names dupServices exSchedule 100 dupResult
    (by with_unfolding_all rfl)

end CVP
